import Mathlib

/-!
Verification development for the character-card copilot backend
(`src-tauri`): a shallow embedding of the context builder, knowledge-entry
scorer, token counter, session store, tool registry and the bounded
tool-call loop, together with theorems settling the specification's
testable properties against the code.

Modelling conventions:
* Rust `String` is Lean `String` (a wrapper around `List Char`).
* The external cl100k byte-pair tokenizer is modelled abstractly: a token
  counter is any function `String → Nat`, and an encoder/decoder pair is a
  `BPEModel`.  All quantified theorems hold for every such model; concrete
  counterexamples instantiate a specific small model.
* `f64` values arising in the entry scorer are modelled by `F64`:
  either an exact rational or `-inf` (the value `f64::log10` returns at 0).
  NaN and `+inf` never arise in the scored expressions.  Rounding of the
  underlying `f64` arithmetic is elided, which is sound for the claims
  proved here: they depend only on exact small-rational arithmetic, on
  signs, and on `-inf` propagation.
* Wall-clock readings (`Instant::elapsed`, `Utc::now`, Unix timestamps) are
  threaded as explicit parameters or fixed to `0` where they are
  observation-only.
* Disk and network side effects (history files, the HTTP client) are
  modelled by explicit collaborator functions; a Rust panic is modelled by
  an `Option` result being `none`.
-/

namespace CCC

/-! ## A minimal JSON value model (serde_json::Value) -/

inductive Json where
  | null : Json
  | bool : Bool → Json
  | num : Int → Json
  | str : String → Json
  | arr : List Json → Json
  | obj : List (String × Json) → Json

/-- `Value::as_bool`. -/
def Json.asBool : Json → Option Bool
  | .bool b => some b
  | _ => none

/-- `Value::as_u64` (numbers are modelled as integers; negative numbers
are not `u64`, so they yield `none`, exactly as in serde_json). -/
def Json.asU64 : Json → Option Nat
  | .num n => if 0 ≤ n then some n.toNat else none
  | _ => none

/-- `Value::as_str`. -/
def Json.asStr : Json → Option String
  | .str s => some s
  | _ => none

/-- `Value::as_array`. -/
def Json.asArr : Json → Option (List Json)
  | .arr l => some l
  | _ => none

/-- `Map::get` on a JSON object rendered as an association list. -/
def jGet (m : List (String × Json)) (k : String) : Option Json :=
  match m with
  | [] => none
  | (k', v) :: rest => if k' = k then some v else jGet rest k

/-- One hexadecimal digit (lower case), for JSON control-character escapes. -/
def hexDigit (n : Nat) : Char :=
  if n < 10 then Char.ofNat (48 + n) else Char.ofNat (87 + n)

/-- JSON string escaping of one character, as serde_json renders it. -/
def jsonEscChar (c : Char) : String :=
  if c = '"' then "\\\""
  else if c = '\\' then "\\\\"
  else if c = '\n' then "\\n"
  else if c = '\r' then "\\r"
  else if c = '\t' then "\\t"
  else if c.toNat < 32 then
    String.mk ['\\', 'u', '0', '0', hexDigit (c.toNat / 16), hexDigit (c.toNat % 16)]
  else String.mk [c]

/-- A JSON string literal with quotes and escapes. -/
def jsonQuote (s : String) : String :=
  "\"" ++ String.join (s.data.map jsonEscChar) ++ "\""

/-- Comma-join a list of already-rendered pieces. -/
def joinComma : List String → String
  | [] => ""
  | [s] => s
  | s :: rest => s ++ "," ++ joinComma rest

/-- Rust `slice::join(", ")`. -/
def joinCommaSp : List String → String
  | [] => ""
  | [s] => s
  | s :: rest => s ++ ", " ++ joinCommaSp rest

mutual

/-- Compact JSON rendering, as `serde_json::to_string` produces it. -/
def serializeJson : Json → String
  | .null => "null"
  | .bool b => cond b ("true") ("false")
  | .num n => Int.repr n
  | .str s => jsonQuote s
  | .arr l => "[" ++ joinComma (serializeJsonList l) ++ "]"
  | .obj l => "\x7b" ++ joinComma (serializeJsonObj l) ++ "\x7d"

def serializeJsonList : List Json → List String
  | [] => []
  | j :: rest => serializeJson j :: serializeJsonList rest

def serializeJsonObj : List (String × Json) → List String
  | [] => []
  | (k, v) :: rest => (jsonQuote k ++ ":" ++ serializeJson v) :: serializeJsonObj rest

end

/-! ## String helpers mirroring Rust std behaviour -/

/-- Whether a character is whitespace (`char::is_whitespace`; the ASCII
fragment, which is all the development depends on). -/
def isWS (c : Char) : Bool := c.isWhitespace

/-- Count maximal nonempty non-whitespace runs; `inWord` records whether the
previous character belonged to a word. -/
def wcAux : List Char → Bool → Nat
  | [], _ => 0
  | c :: rest, inWord =>
    if isWS c then wcAux rest false
    else (if inWord then 0 else 1) + wcAux rest true

/-- Rust `str::split_whitespace().count()`. -/
def wordCount (s : String) : Nat := wcAux s.data false

/-- One fuel-indexed step list of `str::replace` (leftmost, non-overlapping);
fuel `≥` input length makes it total. -/
def replaceGo (pat rep : List Char) : Nat → List Char → List Char
  | 0, l => l
  | _ + 1, [] => []
  | fuel + 1, c :: rest =>
    if pat ≠ [] ∧ pat.isPrefixOf (c :: rest) then
      rep ++ replaceGo pat rep fuel ((c :: rest).drop pat.length)
    else
      c :: replaceGo pat rep fuel rest

/-- Rust `str::replace` (for the nonempty patterns this codebase uses). -/
def strReplace (s pat rep : String) : String :=
  String.mk (replaceGo pat.data rep.data s.data.length s.data)

/-! ## `F64`: the fragment of `f64` reachable by the entry scorer -/

/-- An `f64` value arising in importance scoring: an exact rational or
negative infinity (`f64::log10(0.0)`).  NaN never arises (see `c10`). -/
inductive F64 where
  | neginf : F64
  | val : ℚ → F64
deriving DecidableEq

/-- `f64` addition restricted to this fragment (`-inf` absorbs). -/
def F64.add : F64 → F64 → F64
  | .neginf, _ => .neginf
  | .val _, .neginf => .neginf
  | .val a, .val b => .val (a + b)

/-- `f64` multiplication by a positive finite constant (`-inf` stays `-inf`). -/
def F64.mulPos (x : F64) (c : ℚ) : F64 :=
  match x with
  | .neginf => .neginf
  | .val a => .val (a * c)

/-- The `f64` total order restricted to this fragment (no NaN, so
`partial_cmp` is total and `.unwrap()` cannot panic). -/
def F64.le : F64 → F64 → Prop
  | .neginf, _ => True
  | .val _, .neginf => False
  | .val a, .val b => a ≤ b

instance : DecidableRel F64.le := fun a b =>
  match a, b with
  | .neginf, _ => isTrue trivial
  | .val _, .neginf => isFalse (fun h => h)
  | .val x, .val y => inferInstanceAs (Decidable (x ≤ y))

theorem F64.leTotal (a b : F64) : F64.le a b ∨ F64.le b a := by
  cases a with
  | neginf => exact Or.inl trivial
  | val x =>
    cases b with
    | neginf => exact Or.inr trivial
    | val y => exact (le_total x y : x ≤ y ∨ y ≤ x)

theorem F64.leTrans {a b c : F64} (h1 : F64.le a b) (h2 : F64.le b c) : F64.le a c := by
  cases a with
  | neginf => trivial
  | val x =>
    cases b with
    | neginf => exact absurd h1 (by simp [F64.le])
    | val y =>
      cases c with
      | neginf => exact absurd h2 (by simp [F64.le])
      | val z => exact (le_trans (show x ≤ y from h1) (show y ≤ z from h2) : x ≤ z)

/-- Model of `f64::log10` on integer word counts: `-inf` at `0`, a
nonnegative finite value on positive arguments.  The claims proved below
depend only on those two facts, which the model shares with `f64::log10`;
the exact finite values are irrelevant (see the theorems' proofs). -/
def log10F (n : Nat) : F64 :=
  if n = 0 then .neginf else .val (Nat.log 10 n)

/-! ## chat_history.rs: message shapes -/

structure ToolFunction where
  name : String
  arguments : String
deriving DecidableEq

structure ToolCall where
  id : String
  type : String
  function : ToolFunction
deriving DecidableEq

structure ChatMessage where
  role : String
  content : String
  name : Option String
  tool_calls : Option (List ToolCall)
  tool_call_id : Option String
  timestamp : Option Int
deriving DecidableEq

/-! ## character_storage.rs: the character card data model -/

structure CharacterMeta where
  uuid : String
  version : String
  created_at : String
  updated_at : String

/-- Modelled from the spec: the `WorldBookEntry` struct declaration lives in
the storage module, whose version in the provided sources predates the world
book; the fields are those of the spec's Knowledge Entry data model (id,
display name, trigger keywords, content, enabled flag, insertion order,
priority, extension map) plus the optional fields visible at the struct's
construction site in `tools/world_book_creator.rs`. -/
structure WorldBookEntry where
  id : Option Nat
  name : Option String
  keys : List String
  content : String
  extensions : Json
  enabled : Bool
  insertion_order : Nat
  case_sensitive : Option Bool
  priority : Option Nat
  comment : Option String
  selective : Option Bool
  secondary_keys : Option (List String)
  constant : Option Bool
  position : Option String

/-- Modelled from the spec: the `CharacterBook` struct declaration lives in
the storage module, whose version in the provided sources predates the world
book; the fields are those of the spec's Knowledge Base data model (optional
scan depth, optional token sub-budget, optional recursive-scan flag, entry
list) plus the extension map visible at its construction site in
`tools/world_book_creator.rs`. -/
structure CharacterBook where
  name : Option String
  description : Option String
  scan_depth : Option Int
  token_budget : Option Int
  recursive_scanning : Option Bool
  extensions : Json
  entries : List WorldBookEntry

structure TavernCardV2Data where
  name : String
  description : String
  personality : String
  scenario : String
  first_mes : String
  mes_example : String
  creator_notes : String
  system_prompt : String
  post_history_instructions : String
  alternate_greetings : List String
  tags : List String
  creator : String
  character_version : String
  extensions : Json
  character_book : Option CharacterBook

structure TavernCardV2 where
  spec : String
  spec_version : String
  data : TavernCardV2Data

structure CharacterData where
  uuid : String
  meta : CharacterMeta
  card : TavernCardV2
  backgroundPath : String

/-! ## Serde serialization of a world-book entry to a JSON object

`build_worldbook_content` runs each entry through `serde_json::to_value`
and then reads the resulting object; this is that serialization. -/

def optJson (f : α → Json) : Option α → Json
  | none => Json.null
  | some a => f a

/-- `serde_json::to_value` of a `WorldBookEntry`, as the association list of
its fields in declaration order. -/
def entryToJsonObj (e : WorldBookEntry) : List (String × Json) :=
  [("id", optJson (fun n => Json.num n) e.id),
   ("name", optJson Json.str e.name),
   ("keys", Json.arr (e.keys.map Json.str)),
   ("content", Json.str e.content),
   ("extensions", e.extensions),
   ("enabled", Json.bool e.enabled),
   ("insertion_order", Json.num e.insertion_order),
   ("case_sensitive", optJson Json.bool e.case_sensitive),
   ("priority", optJson (fun n => Json.num n) e.priority),
   ("comment", optJson Json.str e.comment),
   ("selective", optJson Json.bool e.selective),
   ("secondary_keys", optJson (fun l => Json.arr (l.map Json.str)) e.secondary_keys),
   ("constant", optJson Json.bool e.constant),
   ("position", optJson Json.str e.position)]

/-! ## backend/domain/sessions/config.rs -/

structure TokenBudget where
  total_limit : Nat
  system_reserved : Nat
  character_reserved : Nat
  worldbook_reserved : Nat
  history_reserved : Nat
deriving DecidableEq

/-- `TokenBudget::default()`.  The Rust code computes the reservations as
`(102400_f64 * fraction) as usize`; for the fractions 0.15/0.35/0.20/0.30
the `f64` products round to exactly 15360/35840/20480/30720, which are the
values embedded here. -/
def TokenBudget.default : TokenBudget :=
  { total_limit := 102400
    system_reserved := 15360
    character_reserved := 35840
    worldbook_reserved := 20480
    history_reserved := 30720 }

structure ContextBuilderOptions where
  token_limit : Nat
  enable_smart_truncation : Bool
  ai_role : String
  ai_task : String
  prioritize_chat_history : Bool
  placeholders : List (String × String)

/-- Association-list lookup modelling `HashMap::get`. -/
def mapGet (m : List (String × String)) (k : String) : Option String :=
  match m with
  | [] => none
  | (k', v) :: rest => if k' = k then some v else mapGet rest k

/-- `ContextBuilderOptions::default()`. -/
def ContextBuilderOptions.default : ContextBuilderOptions :=
  { token_limit := 102400
    enable_smart_truncation := true
    ai_role := "\x7b\x7bROLE\x7d\x7d"
    ai_task := "\x7b\x7bTASK\x7d\x7d"
    prioritize_chat_history := true
    placeholders :=
      [("\x7b\x7bROLE\x7d\x7d", "角色卡编写助手"),
       ("\x7b\x7bTASK\x7d\x7d", "帮助用户创作和完善角色设定, 需要从多个角度(角色动机，角色心理，角色性格，角色背景)等分析，完成角色卡。当用户要求(帮忙填写)的时候，主动使用工具(edit_character)填写用户要求的field。当用户确认添加worldbook条目的时候，使用工具(create_world_book_entry)")] }

/-! ## context_builder.rs -/

structure OpenAIMessage where
  role : String
  content : String
  name : Option String
  tool_calls : Option (List ToolCall)
  tool_call_id : Option String

structure ProcessedWorldBookEntry where
  entry : List (String × Json)
  token_count : Nat
  importance_score : F64

structure TokenAllocation where
  character : Nat
  worldbook : Nat
  system : Nat
  history : Nat

structure BuiltContextResult where
  system_messages : List OpenAIMessage
  assistant_messages : List OpenAIMessage
  history_messages : List OpenAIMessage
  current_user_message : Option OpenAIMessage
  total_tokens : Nat
  token_allocation : TokenAllocation
  was_truncated : Bool

structure ContextBuilder where
  token_budget : TokenBudget
  options : ContextBuilderOptions

/-- `ContextBuilder::new` (always installs the default token budget). -/
def ContextBuilder.new (options : ContextBuilderOptions) : ContextBuilder :=
  { token_budget := TokenBudget.default, options }

/-- A token counter: the model of the global cl100k `TokenCounter`'s
`count_tokens(_).token_count`, a pure function of the text. -/
def TC : Type := String → Nat

/-- `serde_json::to_value` of a `chat_history::ToolCall`. -/
def toolCallToJson (t : ToolCall) : Json :=
  Json.obj [("id", Json.str t.id), ("type", Json.str t.type),
    ("function", Json.obj [("name", Json.str t.function.name),
      ("arguments", Json.str t.function.arguments)])]

/-- `serde_json::to_string` of an `OpenAIMessage` (the text whose tokens
`count_message_tokens` counts). -/
def serializeOpenAIMessage (m : OpenAIMessage) : String :=
  serializeJson (Json.obj
    [("role", Json.str m.role),
     ("content", Json.str m.content),
     ("name", optJson Json.str m.name),
     ("tool_calls", optJson (fun l => Json.arr (l.map toolCallToJson)) m.tool_calls),
     ("tool_call_id", optJson Json.str m.tool_call_id)])

/-- `ContextBuilder::count_tokens`. -/
def count_tokens (tc : TC) (text : String) : Nat := tc text

/-- `ContextBuilder::count_message_tokens`. -/
def count_message_tokens (tc : TC) (m : OpenAIMessage) : Nat :=
  tc (serializeOpenAIMessage m)

/-- `ContextBuilder::count_messages_tokens`. -/
def count_messages_tokens (tc : TC) (ms : List OpenAIMessage) : Nat :=
  (ms.map (count_message_tokens tc)).sum

/-- `ContextBuilder::process_placeholders`. -/
def process_placeholders (cb : ContextBuilder) (template : String)
    (character_data : CharacterData) : String :=
  let r1 :=
    match mapGet cb.options.placeholders ("\x7b\x7bROLE\x7d\x7d") with
    | some role => strReplace template ("\x7b\x7bROLE\x7d\x7d") role
    | none => template
  let r2 :=
    match mapGet cb.options.placeholders ("\x7b\x7bTASK\x7d\x7d") with
    | some task => strReplace r1 ("\x7b\x7bTASK\x7d\x7d") task
    | none => r1
  strReplace r2 ("\x7b\x7bCHARACTER_NAME\x7d\x7d") character_data.card.data.name

/-- `ContextBuilder::build_system_messages` (the fixed role/task/tools/
instructions template; it cannot fail, so the `Result` wrapper is elided). -/
def build_system_messages (cb : ContextBuilder) (character_data : CharacterData) :
    List OpenAIMessage :=
  let role := process_placeholders cb cb.options.ai_role character_data
  let task := process_placeholders cb cb.options.ai_task character_data
  let content :=
    "role: " ++ role ++ "\n" ++
    "task: " ++ task ++ "\n" ++
    "tools:\n" ++
    "  - name: \"edit_character\"\n" ++
    "    description: \"编辑角色字段\"\n" ++
    "    parameters: \x7b\"type\": \"object\", \"properties\": \x7b\"field\": \x7b\"type\": \"string\"\x7d, \"value\": \x7b\"type\": \"string\"\x7d\x7d\x7d\n" ++
    "  - name: \"create_worldbook_entry\"\n" ++
    "    description: \"创建世界书条目\"\n" ++
    "    parameters: \x7b\"type\": \"object\", \"properties\": \x7b\"name\": \x7b\"type\": \"string\"\x7d, \"content\": \x7b\"type\": \"string\"\x7d, \"keys\": \x7b\"type\": \"array\", \"items\": \x7b\"type\": \"string\"\x7d\x7d\x7d\x7d\n" ++
    "instructions: |\n" ++
    "  基于用户需求分析现有角色设定，提供建议并调用相应工具。\n" ++
    "  始终保持角色设定的一致性和逻辑性，遵循用户的具体要求。\n" ++
    "  如果需要修改角色信息，请使用 edit_character 工具。\n" ++
    "  如果需要添加世界书条目，请使用 create_worldbook_entry 工具。\n"
  [{ role := "system", content, name := none, tool_calls := none, tool_call_id := none }]

/-- One optional rendered field line of `build_character_content`:
empty source fields are skipped. -/
def fieldLine (label value : String) : String :=
  if value = "" then "" else "  " ++ label ++ ": \"" ++ value ++ "\"\n"

/-- `ContextBuilder::build_character_content` (cannot fail; `Result` elided). -/
def build_character_content (_cb : ContextBuilder) (character_data : CharacterData) : String :=
  let d := character_data.card.data
  fieldLine ("name") d.name ++
  fieldLine ("description") d.description ++
  fieldLine ("personality") d.personality ++
  fieldLine ("scenario") d.scenario ++
  fieldLine ("first_mes") d.first_mes ++
  fieldLine ("mes_example") d.mes_example ++
  fieldLine ("creator_notes") d.creator_notes ++
  fieldLine ("system_prompt") d.system_prompt ++
  fieldLine ("post_history_instructions") d.post_history_instructions ++
  (if d.tags = [] then "" else
    "  tags: [" ++ joinCommaSp (d.tags.map (fun t => "\"" ++ t ++ "\"")) ++ "]\n") ++
  fieldLine ("creator") d.creator ++
  fieldLine ("character_version") d.character_version

/-- `ContextBuilder::serialize_worldbook_entry` (the `_index` argument is
accepted and ignored, as in the source; cannot fail, `Result` elided). -/
def serialize_worldbook_entry (entry : List (String × Json)) (_index : Nat) : String :=
  "    - \x7b\n"
  ++ (match jGet entry ("id") with
      | some idv => "      id: " ++ serializeJson idv ++ ",\n"
      | none => "")
  ++ (match (jGet entry ("name")).bind Json.asStr with
      | some n => "      name: \"" ++ n ++ "\",\n"
      | none => "")
  ++ (match (jGet entry ("keys")).bind Json.asArr with
      | some ks =>
        "      keys: [" ++
          joinCommaSp ((ks.filterMap Json.asStr).map (fun k => "\"" ++ k ++ "\"")) ++ "],\n"
      | none => "")
  ++ (match (jGet entry ("content")).bind Json.asStr with
      | some c => "      content: \"" ++ c ++ "\",\n"
      | none => "")
  ++ (match (jGet entry ("enabled")).bind Json.asBool with
      | some b => "      enabled: " ++ (cond b ("true") ("false")) ++ ",\n"
      | none => "")
  ++ (match (jGet entry ("priority")).bind Json.asU64 with
      | some p => "      priority: " ++ Nat.repr p ++ ",\n"
      | none => "")
  ++ "    \x7d\n"

/-- `ContextBuilder::calculate_entry_importance`. -/
def calculate_entry_importance (entry : List (String × Json)) : F64 :=
  let score : F64 := .val 1
  let score := if ((jGet entry ("enabled")).bind Json.asBool).getD true
    then score.add (.val 2) else score
  let score := match (jGet entry ("priority")).bind Json.asU64 with
    | some p => score.add (.val ((p : ℚ) * (1 / 2)))
    | none => score
  let score := match (jGet entry ("keys")).bind Json.asArr with
    | some ks => score.add (.val ((ks.length : ℚ) * (3 / 10)))
    | none => score
  let score := match (jGet entry ("content")).bind Json.asStr with
    | some c =>
      let wc := wordCount c
      if wc > 0 then score.add ((log10F wc).mulPos (1 / 5)) else score
    | none => score
  score

/-- The fixed header of `build_worldbook_content` preceding the entry list. -/
def worldbookHeader (book : CharacterBook) : String :=
  (match book.name with
   | some n => "  name: \"" ++ n ++ "\"\n"
   | none => "")
  ++ (match book.description with
      | some d => "  description: \"" ++ d ++ "\"\n"
      | none => "")
  ++ (match book.scan_depth with
      | some d => "  scan_depth: " ++ Int.repr d ++ "\n"
      | none => "")
  ++ (match book.token_budget with
      | some t => "  token_budget: " ++ Int.repr t ++ "\n"
      | none => "")
  ++ (match book.recursive_scanning with
      | some r => "  recursive_scanning: " ++ (cond r ("true") ("false")) ++ "\n"
      | none => "")
  ++ "  total_entries: " ++ Nat.repr book.entries.length ++ "\n"
  ++ "  entries:\n"

/-- The `processed_entries` list of `build_worldbook_content`: each entry
serialized (at its enumeration index), token-counted and scored. -/
def worldbookProcessed (tc : TC) (book : CharacterBook) : List ProcessedWorldBookEntry :=
  book.entries.enum.map (fun p =>
    let obj := entryToJsonObj p.2
    { entry := obj
      token_count := count_tokens tc (serialize_worldbook_entry obj p.1)
      importance_score := calculate_entry_importance obj })

/-- The sort comparator of `build_worldbook_content`:
`|a, b| b.importance_score.partial_cmp(&a.importance_score).unwrap()`,
i.e. descending by score. -/
def scoreDesc (a b : ProcessedWorldBookEntry) : Prop :=
  F64.le b.importance_score a.importance_score

instance : DecidableRel scoreDesc :=
  fun _ _ => inferInstanceAs (Decidable (F64.le _ _))

instance : IsTotal ProcessedWorldBookEntry scoreDesc :=
  ⟨fun a b => F64.leTotal b.importance_score a.importance_score⟩

instance : IsTrans ProcessedWorldBookEntry scoreDesc :=
  ⟨fun _ _ _ h1 h2 => F64.leTrans h2 h1⟩

/-- The stable descending sort of `build_worldbook_content`.  Rust's
`sort_by` is a stable sort; it is modelled by stable insertion sort, which
produces the same list for the same total preorder. -/
def worldbookSorted (tc : TC) (book : CharacterBook) : List ProcessedWorldBookEntry :=
  List.insertionSort scoreDesc (worldbookProcessed tc book)

/-- The inclusion loop of `build_worldbook_content`: keep an entry whenever
it still fits the remaining budget, then continue with the rest (the loop
has no early exit). -/
def worldbookGreedy (budget : Nat) :
    List ProcessedWorldBookEntry → Nat → List ProcessedWorldBookEntry
  | [], _ => []
  | p :: ps, used =>
    if used + p.token_count ≤ budget then
      p :: worldbookGreedy budget ps (used + p.token_count)
    else
      worldbookGreedy budget ps used

/-- The entries `build_worldbook_content` actually renders, in order. -/
def worldbookIncluded (cb : ContextBuilder) (tc : TC) (book : CharacterBook) :
    List ProcessedWorldBookEntry :=
  worldbookGreedy cb.token_budget.worldbook_reserved (worldbookSorted tc book) 0

/-- `ContextBuilder::build_worldbook_content` (cannot fail on this data
model, so the `Result` wrapper is elided). -/
def build_worldbook_content (cb : ContextBuilder) (tc : TC) (book : CharacterBook) : String :=
  worldbookHeader book ++
    String.join ((worldbookIncluded cb tc book).map (fun p => serialize_worldbook_entry p.entry 0))

/-- `ContextBuilder::build_assistant_messages`: the character message plus
the optional worldbook message, with the character and worldbook token
counts. -/
def build_assistant_messages (cb : ContextBuilder) (tc : TC) (character_data : CharacterData) :
    List OpenAIMessage × Nat × Nat :=
  let character_content := build_character_content cb character_data
  let character_tokens := count_tokens tc character_content
  let charMsg : OpenAIMessage :=
    { role := "assistant", content := "character:\n" ++ character_content
      name := none, tool_calls := none, tool_call_id := none }
  match character_data.card.data.character_book with
  | some character_book =>
    let worldbook_content := build_worldbook_content cb tc character_book
    let worldbook_tokens := count_tokens tc worldbook_content
    ([charMsg,
      { role := "assistant", content := "worldbook:\n" ++ worldbook_content
        name := none, tool_calls := none, tool_call_id := none }],
     character_tokens, worldbook_tokens)
  | none => ([charMsg], character_tokens, 0)

/-- The `ChatMessage → OpenAIMessage` conversion in
`build_history_messages`. -/
def toOpenAIMessage (m : ChatMessage) : OpenAIMessage :=
  { role := m.role, content := m.content, name := m.name
    tool_calls := m.tool_calls, tool_call_id := m.tool_call_id }

/-- The history loop of `build_history_messages`: walk the reversed history
(newest first), prepend each message that still fits, stop at the first one
that does not. -/
def buildHistGo (tc : TC) (limit : Nat) :
    List ChatMessage → List OpenAIMessage → Nat → List OpenAIMessage
  | [], acc, _ => acc
  | m :: rest, acc, used =>
    let om := toOpenAIMessage m
    let c := count_message_tokens tc om
    if used + c ≤ limit then buildHistGo tc limit rest (om :: acc) (used + c)
    else acc

/-- `ContextBuilder::build_history_messages` (cannot fail; `Result` elided). -/
def build_history_messages (tc : TC) (chat_history : List ChatMessage)
    (token_limit : Nat) : List OpenAIMessage :=
  buildHistGo tc token_limit chat_history.reverse [] 0

/-- `ContextBuilder::build_full_context` (cannot fail on this data model,
so the `Result` wrapper is elided). -/
def build_full_context (cb : ContextBuilder) (tc : TC) (character_data : CharacterData)
    (chat_history : List ChatMessage) (current_user_message : Option String) :
    BuiltContextResult :=
  let system_messages := build_system_messages cb character_data
  let system_tokens := count_messages_tokens tc system_messages
  let amt := build_assistant_messages cb tc character_data
  let assistant_messages := amt.1
  let character_tokens := amt.2.1
  let worldbook_tokens := amt.2.2
  let history_messages :=
    build_history_messages tc chat_history cb.token_budget.history_reserved
  let history_tokens := count_messages_tokens tc history_messages
  let current_message : Option OpenAIMessage :=
    current_user_message.map (fun content =>
      { role := "user", content, name := none, tool_calls := none, tool_call_id := none })
  let current_tokens := (current_message.map (count_message_tokens tc)).getD 0
  let token_allocation : TokenAllocation :=
    { character := character_tokens, worldbook := worldbook_tokens
      system := system_tokens, history := history_tokens }
  let total_tokens :=
    system_tokens + character_tokens + worldbook_tokens + history_tokens + current_tokens
  { system_messages, assistant_messages, history_messages
    current_user_message := current_message
    total_tokens, token_allocation
    was_truncated := total_tokens > cb.options.token_limit }

/-! ## token_counter.rs: the byte-pair tokenizer boundary

`TokenCounter` wraps the external cl100k `CoreBPE`.  An encoder/decoder
pair is modelled abstractly; `Roundtrip` is the defining property of a
lossless tokenizer (decoding a full encoding restores the text), which
cl100k satisfies.  Decoding an arbitrary token sequence may fail
(`decode` returns an error on token sequences that do not form valid
text), hence the `Option`. -/

structure BPEModel where
  encode : String → List Nat
  decode : List Nat → Option String

/-- A tokenizer is lossless on full encodings. -/
def Roundtrip (m : BPEModel) : Prop :=
  ∀ s : String, m.decode (m.encode s) = some s

/-- `TokenCounter::count_tokens(_).token_count`. -/
def TokenCounter.count_tokens (m : BPEModel) (text : String) : Nat :=
  (m.encode text).length

/-- `TokenCounter::truncate_to_limit`. -/
def TokenCounter.truncate_to_limit (m : BPEModel) (text : String) (limit : Nat) : String :=
  let tokens := m.encode text
  if tokens.length ≤ limit then text
  else
    match m.decode (tokens.take limit) with
    | some s => s
    | none =>
      -- decode failure: fall back to a character-ratio estimate
      let char_limit := limit * 4
      String.mk (text.data.take char_limit)

/-! ## character_session.rs: sessions and the session manager

`DateTime<Utc>` and Unix timestamps are modelled as `Nat` ticks passed in
explicitly; file writes by `ChatHistoryManager` are external side effects
and only the in-memory state transition is modelled. -/

inductive SessionStatus where
  | Active : SessionStatus
  | Paused : SessionStatus
  | Loading : SessionStatus
  | Error : String → SessionStatus
deriving DecidableEq

structure CharacterSession where
  uuid : String
  character_data : CharacterData
  chat_history : List ChatMessage
  last_context_tokens : Nat
  last_active : Nat
  status : SessionStatus
  last_saved_index : Nat

/-- `CharacterSession::new`. -/
def CharacterSession.new (uuid : String) (character_data : CharacterData)
    (now : Nat) : CharacterSession :=
  { uuid, character_data, chat_history := []
    last_context_tokens := 0, last_active := now
    status := .Loading, last_saved_index := 0 }

/-- `CharacterSession::load`: `new`, then install the durable history and
set the persisted-through cursor to its length. -/
def CharacterSession.load (uuid : String) (character_data : CharacterData)
    (chat_history : List ChatMessage) (now : Nat) : CharacterSession :=
  { CharacterSession.new uuid character_data now with
    chat_history := chat_history
    last_saved_index := chat_history.length
    status := .Active
    last_active := now }

/-- `CharacterSession::add_user_message`; returns the created message and
the updated session. -/
def CharacterSession.add_user_message (s : CharacterSession) (content : String)
    (now : Nat) : ChatMessage × CharacterSession :=
  let message : ChatMessage :=
    { role := "user", content, name := none, tool_calls := none
      tool_call_id := none, timestamp := some now }
  (message, { s with chat_history := s.chat_history ++ [message], last_active := now })

/-- `CharacterSession::save_history`.  The slice expression
`&self.chat_history[self.last_saved_index..]` panics when the cursor
exceeds the log length; the panic is modelled by `none`.  On success the
unsaved suffix is written out (external side effect) and the cursor
advances to the log length. -/
def CharacterSession.save_history (s : CharacterSession) : Option CharacterSession :=
  if s.last_saved_index ≤ s.chat_history.length then
    some { s with last_saved_index := s.chat_history.length }
  else
    none

/-- `CharacterSession::clear_history`. -/
def CharacterSession.clear_history (s : CharacterSession) (now : Nat) : CharacterSession :=
  { s with chat_history := [], last_saved_index := 0, last_active := now }

/-- `CharacterSession::delete_message`. -/
def CharacterSession.delete_message (s : CharacterSession) (index : Nat)
    (now : Nat) : Except String (ChatMessage × CharacterSession) :=
  if h : index < s.chat_history.length then
    .ok (s.chat_history.get ⟨index, h⟩,
      { s with chat_history := s.chat_history.eraseIdx index, last_active := now })
  else
    .error ("消息索引 " ++ Nat.repr index ++ " 超出范围（共 " ++
      Nat.repr s.chat_history.length ++ " 条消息）")

/-- `CharacterSession::delete_last_message` (`Vec::pop`). -/
def CharacterSession.delete_last_message (s : CharacterSession)
    (now : Nat) : Except String (ChatMessage × CharacterSession) :=
  match s.chat_history.getLast? with
  | none => .error ("聊天历史为空，无法删除")
  | some m =>
    .ok (m, { s with chat_history := s.chat_history.dropLast, last_active := now })

/-- Generic association-list lookup (model of `HashMap::get`; the model
fixes the map's iteration order to insertion order). -/
def assocGet {α : Type} (m : List (String × α)) (k : String) : Option α :=
  match m with
  | [] => none
  | (k', v) :: rest => if k' = k then some v else assocGet rest k

/-- `HashMap::insert`: replace the binding if present, otherwise add it. -/
def assocInsert {α : Type} (m : List (String × α)) (k : String) (v : α) :
    List (String × α) :=
  match m with
  | [] => [(k, v)]
  | (k', v') :: rest =>
    if k' = k then (k, v) :: rest else (k', v') :: assocInsert rest k v

/-- `HashMap::remove` (key set is duplicate-free by construction). -/
def assocRemove {α : Type} (m : List (String × α)) (k : String) :
    List (String × α) :=
  match m with
  | [] => []
  | (k', v') :: rest => if k' = k then rest else (k', v') :: assocRemove rest k

structure SessionManager where
  sessions : List (String × CharacterSession)
  max_sessions : Nat

/-- `SessionManager::new`. -/
def SessionManager.new (max_sessions : Nat) : SessionManager :=
  { sessions := [], max_sessions }

/-- `Iterator::min_by_key` over the session map: the first entry (in
iteration order) with minimal `last_active`. -/
def smOldestGo (best : String × CharacterSession) :
    List (String × CharacterSession) → String × CharacterSession
  | [] => best
  | q :: rest =>
    smOldestGo (if q.2.last_active < best.2.last_active then q else best) rest

def smOldest : List (String × CharacterSession) → Option (String × CharacterSession)
  | [] => none
  | p :: rest => some (smOldestGo p rest)

/-- `SessionManager::cleanup_old_sessions`: drop the least recently active
session, if any. -/
def cleanup_old_sessions (sessions : List (String × CharacterSession)) :
    List (String × CharacterSession) :=
  match smOldest sessions with
  | some (oldest_uuid, _) => assocRemove sessions oldest_uuid
  | none => sessions

/-- `SessionManager::get_or_create_session`.  The on-disk character data
and durable history consumed by `CharacterSession::load` are passed in
explicitly; returns the session handed to the caller and the new manager
state. -/
def SessionManager.get_or_create_session (mgr : SessionManager) (uuid : String)
    (character_data : CharacterData) (disk_history : List ChatMessage)
    (now : Nat) : CharacterSession × SessionManager :=
  match assocGet mgr.sessions uuid with
  | some session => (session, mgr)
  | none =>
    let sessions1 :=
      if mgr.sessions.length ≥ mgr.max_sessions then
        cleanup_old_sessions mgr.sessions
      else
        mgr.sessions
    let session := CharacterSession.load uuid character_data disk_history now
    (session, { mgr with sessions := assocInsert sessions1 session.uuid session })

/-- `SessionManager::update_session`. -/
def SessionManager.update_session (mgr : SessionManager)
    (session : CharacterSession) : SessionManager :=
  { mgr with sessions := assocInsert mgr.sessions session.uuid session }

/-- `SessionManager::remove_session`. -/
def SessionManager.remove_session (mgr : SessionManager) (uuid : String) :
    Option CharacterSession × SessionManager :=
  (assocGet mgr.sessions uuid, { mgr with sessions := assocRemove mgr.sessions uuid })

/-- One public session-manager operation (the operations named by the
eviction-bound property). -/
inductive SMOp where
  | getOrCreate (uuid : String) (character_data : CharacterData)
      (disk_history : List ChatMessage) (now : Nat) : SMOp
  | update (session : CharacterSession) : SMOp
  | remove (uuid : String) : SMOp

def applySMOp (mgr : SessionManager) : SMOp → SessionManager
  | .getOrCreate uuid cd hist now =>
    (SessionManager.get_or_create_session mgr uuid cd hist now).2
  | .update session => SessionManager.update_session mgr session
  | .remove uuid => (SessionManager.remove_session mgr uuid).2

def applySMOps (mgr : SessionManager) (ops : List SMOp) : SessionManager :=
  ops.foldl applySMOp mgr

/-! ## ai_tools.rs / tools/registry.rs: the tool boundary -/

structure ToolResult where
  success : Bool
  data : Option Json
  error : Option String
  execution_time_ms : Nat

structure ToolCallRequest where
  tool_name : String
  parameters : List (String × Json)
  character_uuid : Option String
  context : Option Json

/-- A registered tool: its `execute` body is an external collaborator and
is modelled as a pure function of the request. -/
structure RegisteredTool where
  name : String
  enabled : Bool
  execute : ToolCallRequest → ToolResult

structure ToolRegistry where
  tools : List (String × RegisteredTool)

/-- `ToolRegistry::execute_tool_call_global` (elapsed time observed as 0). -/
def ToolRegistry.execute_tool_call_global (reg : ToolRegistry)
    (request : ToolCallRequest) : ToolResult :=
  match assocGet reg.tools request.tool_name with
  | some tool => tool.execute request
  | none =>
    { success := false
      data := none
      error := some ("Unknown tool: " ++ request.tool_name)
      execution_time_ms := 0 }

/-! ## ai_chat.rs: messages, responses and the bounded tool-call loop -/

inductive MessageRole where
  | System : MessageRole
  | User : MessageRole
  | Assistant : MessageRole
  | Tool : MessageRole
deriving DecidableEq

structure ToolCallFunctionData where
  name : String
  arguments : String
deriving DecidableEq

structure ToolCallData where
  id : String
  call_type : String
  function : ToolCallFunctionData
deriving DecidableEq

structure AIChatMessage where
  role : MessageRole
  content : String
  name : Option String
  tool_calls : Option (List ToolCallData)
  tool_call_id : Option String
deriving DecidableEq

structure Usage where
  prompt_tokens : Nat
  completion_tokens : Nat
  total_tokens : Nat
deriving DecidableEq

structure ChatCompletionChoice where
  index : Nat
  message : AIChatMessage
  finish_reason : String
deriving DecidableEq

structure ChatCompletionResponse where
  id : String
  object : String
  created : Nat
  model : String
  system_fingerprint : Option String
  choices : List ChatCompletionChoice
  usage : Usage
deriving DecidableEq

/-- The model client: one request/response round-trip with the provider,
already converted to the frontend-compatible response shape.  Transport is
assumed to succeed (transport failures abort the loop and are outside the
claims proved about it). -/
def ModelClient : Type := List AIChatMessage → ChatCompletionResponse

/-- The argument parser boundary:
`serde_json::from_str::<HashMap<String, Value>>` applied to a tool call's
argument string; an `Except.error` carries the serde error text. -/
def ArgParser : Type := String → Except String (List (String × Json))

/-- `AIChatService::execute_single_tool_call`.  `svc` is
`AIToolService::execute_tool_call` (a collaborator doing storage I/O),
`character_uuid` the global current-character state.  Returns the JSON
payload serialized into the tool-role turn.  (serde's map key ordering on
the rendered object is not modelled; nothing below depends on it.) -/
def execute_single_tool_call (svc : ToolCallRequest → ToolResult)
    (parse : ArgParser) (character_uuid : Option String)
    (tool_name arguments : String) : Option Json :=
  match parse arguments with
  | .error err =>
    some (Json.obj
      [("success", Json.bool false),
       ("error", Json.str ("Invalid tool arguments: " ++ err))])
  | .ok params =>
    let tool_request : ToolCallRequest :=
      { tool_name, parameters := params, character_uuid, context := none }
    let result := svc tool_request
    if result.success then
      some (Json.obj
        [("success", Json.bool true),
         ("data", optJson id result.data),
         ("execution_time_ms", Json.num result.execution_time_ms)])
    else
      let error_message := result.error.getD ("Tool execution failed")
      some (Json.obj
        [("success", Json.bool false),
         ("error", Json.str error_message),
         ("data", optJson id result.data),
         ("execution_time_ms", Json.num result.execution_time_ms)])

/-- The tool-role message appended for one tool call: the serialized tool
result on success of `execute_single_tool_call`, the fixed failure object
otherwise. -/
def toolResultMessage (res : Option Json) (call_id : String) : AIChatMessage :=
  match res with
  | some tool_result =>
    { role := .Tool, content := serializeJson tool_result
      name := none, tool_calls := none, tool_call_id := some call_id }
  | none =>
    { role := .Tool
      content := serializeJson (Json.obj
        [("success", Json.bool false),
         ("error", Json.str ("Tool execution failed"))])
      name := none, tool_calls := none, tool_call_id := some call_id }

/-- The `loop` of `AIChatService::create_chat_completion`.  `fuel` is the
number of round-trips still allowed (`max_iterations - iteration`); the
second component of the result counts the requests actually sent. -/
def chatLoopGo (client : ModelClient) (svc : ToolCallRequest → ToolResult)
    (parse : ArgParser) (character_uuid : Option String) (app_handle : Bool) :
    Nat → List AIChatMessage → Except String ChatCompletionResponse × Nat
  | 0, _ => (.error ("工具调用循环次数超过限制"), 0)
  | fuel + 1, messages =>
    let our_response := client messages
    let cont : Option (List AIChatMessage) :=
      match our_response.choices.head? with
      | some choice =>
        match choice.message.tool_calls with
        | some tool_calls =>
          if tool_calls ≠ [] ∧ app_handle then
            some (messages ++ [choice.message] ++ tool_calls.map (fun call =>
              toolResultMessage
                (execute_single_tool_call svc parse character_uuid
                  call.function.name call.function.arguments)
                call.id))
          else none
        | none => none
      | none => none
    match cont with
    | some messages' =>
      let r := chatLoopGo client svc parse character_uuid app_handle fuel messages'
      (r.1, r.2 + 1)
    | none => (.ok our_response, 1)

/-- `AIChatService::create_chat_completion` with its hard cap
`max_iterations = 5`, instrumented with the number of requests sent. -/
def create_chat_completion (client : ModelClient)
    (svc : ToolCallRequest → ToolResult) (parse : ArgParser)
    (character_uuid : Option String) (app_handle : Bool)
    (request_messages : List AIChatMessage) :
    Except String ChatCompletionResponse × Nat :=
  chatLoopGo client svc parse character_uuid app_handle 5 request_messages

/-! ## The specification's wording of the entry scorer (for refinement
comparison with `calculate_entry_importance`) -/

/-- The scoring policy exactly as the specification words it: base 1.0,
+2.0 if enabled, +(priority × 0.5) if priority present,
+(keyword_count × 0.3), and +(log10(word_count) × 0.2) **if the content is
non-empty**. -/
def specEntryScore (e : WorldBookEntry) : F64 :=
  let base : F64 := .val 1
  let s1 := if e.enabled then base.add (.val 2) else base
  let s2 := match e.priority with
    | some p => s1.add (.val ((p : ℚ) * (1 / 2)))
    | none => s1
  let s3 := s2.add (.val ((e.keys.length : ℚ) * (3 / 10)))
  if e.content ≠ "" then s3.add ((log10F (wordCount e.content)).mulPos (1 / 5)) else s3

/-- The scorer specification with its log-term guard amended to "if the
whitespace-separated word count is strictly positive" (all other wording
unchanged). -/
def specEntryScoreAmended (e : WorldBookEntry) : F64 :=
  let base : F64 := .val 1
  let s1 := if e.enabled then base.add (.val 2) else base
  let s2 := match e.priority with
    | some p => s1.add (.val ((p : ℚ) * (1 / 2)))
    | none => s1
  let s3 := s2.add (.val ((e.keys.length : ℚ) * (3 / 10)))
  if wordCount e.content > 0 then
    s3.add ((log10F (wordCount e.content)).mulPos (1 / 5))
  else s3

/-! ## Concrete sample instances used by closed witnesses and
counterexamples -/

def sampleMeta : CharacterMeta :=
  { uuid := "", version := "", created_at := "", updated_at := "" }

def sampleCardData : TavernCardV2Data :=
  { name := "", description := "", personality := "", scenario := ""
    first_mes := "", mes_example := "", creator_notes := ""
    system_prompt := "", post_history_instructions := ""
    alternate_greetings := [], tags := [], creator := ""
    character_version := "", extensions := Json.obj []
    character_book := none }

def sampleCharacter : CharacterData :=
  { uuid := "c-1", meta := sampleMeta
    card := { spec := "chara_card_v2", spec_version := "2.0", data := sampleCardData }
    backgroundPath := "" }

/-- A knowledge entry whose content is a single blank: non-empty text with
zero whitespace-separated words. -/
def blankContentEntry : WorldBookEntry :=
  { id := none, name := none, keys := [], content := " "
    extensions := Json.obj [], enabled := true, insertion_order := 0
    case_sensitive := none, priority := none, comment := none
    selective := none, secondary_keys := none, constant := none
    position := none }

/-- A model client that always answers with one function call. -/
def alwaysToolClient : ModelClient := fun _ =>
  { id := "r", object := "chat.completion", created := 0, model := "m"
    system_fingerprint := none
    choices :=
      [{ index := 0
         message :=
           { role := .Assistant, content := ""
             name := none
             tool_calls := some
               [{ id := "call-1", call_type := "function"
                  function := { name := "edit_character", arguments := "\x7b\x7d" } }]
             tool_call_id := none }
         finish_reason := "tool_calls" }]
    usage := { prompt_tokens := 0, completion_tokens := 0, total_tokens := 0 } }

/-- A tool-service collaborator that always succeeds instantly. -/
def okToolService : ToolCallRequest → ToolResult := fun _ =>
  { success := true, data := none, error := none, execution_time_ms := 0 }

/-- An argument parser that accepts everything as the empty map. -/
def okArgParser : ArgParser := fun _ => .ok []

/-- An argument parser that always fails with a fixed serde error. -/
def failArgParser : ArgParser := fun _ =>
  .error ("expected value at line 1 column 1")

/-! ## Shared lemmas about the entry scorer -/

/-- Reduction of `calculate_entry_importance` on a serialized entry: it
computes exactly the spec formula with the log-term guard
`word_count > 0`. -/
theorem calcEntryEq (e : WorldBookEntry) :
    calculate_entry_importance (entryToJsonObj e) = specEntryScoreAmended e := by
  cases hp : e.priority with
  | none =>
    by_cases hw : wordCount e.content > 0 <;> by_cases he : e.enabled <;>
      simp [calculate_entry_importance, specEntryScoreAmended, entryToJsonObj, jGet,
        Json.asBool, Json.asU64, Json.asStr, Json.asArr, optJson, hp, he, hw,
        List.length_map]
  | some p =>
    by_cases hw : wordCount e.content > 0 <;> by_cases he : e.enabled <;>
      simp [calculate_entry_importance, specEntryScoreAmended, entryToJsonObj, jGet,
        Json.asBool, Json.asU64, Json.asStr, Json.asArr, optJson, hp, he, hw,
        List.length_map]

theorem F64.addVal (a b : ℚ) : (F64.val a).add (F64.val b) = F64.val (a + b) := rfl

theorem F64.mulPosVal (a c : ℚ) : (F64.val a).mulPos c = F64.val (a * c) := rfl

theorem log10F_pos {w : Nat} (hw : 0 < w) :
    log10F w = F64.val (Nat.log 10 w) := by
  simp [log10F, Nat.pos_iff_ne_zero.mp hw]

/-! ## C10 -/

/-- C10: for every knowledge entry, the importance score is a finite value
(never `-inf`, and NaN cannot arise) at least `1.0`: the log10 term is only
added when the whitespace-separated word count is strictly positive, and
every addend is then nonnegative.  Consequently the comparator
`scoreDesc`, which models the unwrapped `partial_cmp` of the descending
sort in `build_worldbook_content`, is total on all scores it is ever
applied to, so the sort cannot panic. -/
theorem c10_score_finite_ge_one (e : WorldBookEntry) :
    ∃ q : ℚ, calculate_entry_importance (entryToJsonObj e) = F64.val q ∧ 1 ≤ q := by
  rw [calcEntryEq]
  simp only [specEntryScoreAmended]
  have hbase : ∃ b : ℚ,
      (if e.enabled then (F64.val 1).add (F64.val 2) else F64.val 1) = F64.val b ∧ 1 ≤ b := by
    by_cases he : e.enabled
    · exact ⟨3, by simp [he, F64.addVal]; norm_num, by norm_num⟩
    · exact ⟨1, by simp [he], le_refl 1⟩
  obtain ⟨b, hb, hb1⟩ := hbase
  rw [hb]
  have hk : (0 : ℚ) ≤ (e.keys.length : ℚ) * (3 / 10) := by positivity
  cases hp : e.priority with
  | none =>
    by_cases hw : wordCount e.content > 0
    · rw [if_pos hw, log10F_pos hw]
      have hl : (0 : ℚ) ≤ (Nat.log 10 (wordCount e.content) : ℚ) * (1 / 5) := by positivity
      simp only [F64.addVal, F64.mulPosVal]
      exact ⟨_, rfl, by linarith⟩
    · rw [if_neg hw]
      simp only [F64.addVal]
      exact ⟨_, rfl, by linarith⟩
  | some p =>
    have hpq : (0 : ℚ) ≤ (p : ℚ) * (1 / 2) := by positivity
    by_cases hw : wordCount e.content > 0
    · rw [if_pos hw, log10F_pos hw]
      have hl : (0 : ℚ) ≤ (Nat.log 10 (wordCount e.content) : ℚ) * (1 / 5) := by positivity
      simp only [F64.addVal, F64.mulPosVal]
      exact ⟨_, rfl, by linarith⟩
    · rw [if_neg hw]
      simp only [F64.addVal]
      exact ⟨_, rfl, by linarith⟩

/-! ## C9 -/

/-- C9: `delete_last_message` does not adjust `last_saved_index`, so after
appending one turn, saving, and deleting the last message, the
persisted-through cursor exceeds the log length and the next
`save_history` hits the out-of-range slice (modelled by `none`). -/
theorem c9_cursor_exceeds_after_delete :
    ∃ (s2 : CharacterSession) (m : ChatMessage) (s3 : CharacterSession),
      ((CharacterSession.new ("u1") sampleCharacter 0).add_user_message ("hello") 1).2.save_history
          = some s2 ∧
      s2.delete_last_message 2 = .ok (m, s3) ∧
      s3.chat_history.length < s3.last_saved_index ∧
      s3.save_history = none := by
  refine ⟨_, _, _, rfl, rfl, ?_, rfl⟩
  decide

/-! ## C7 -/

/-- C7 (amended): for every knowledge entry the importance score follows
exactly the spec formula — base 1.0, +2.0 if enabled, +(priority × 0.5) if
priority present, +(keyword_count × 0.3), +(log10(word_count) × 0.2) —
except that the log10 term is added when the whitespace-separated word
count is strictly positive (not merely when the content is non-empty).
Scoring is a pure function of the entry, so repeated evaluation on an
unmodified entry yields the same value. -/
theorem c7_score_formula (e : WorldBookEntry) :
    calculate_entry_importance (entryToJsonObj e) = specEntryScoreAmended e ∧
    calculate_entry_importance (entryToJsonObj e) = calculate_entry_importance (entryToJsonObj e) :=
  ⟨calcEntryEq e, rfl⟩

/-- C7 counterexample: on an entry whose content is a single blank
character the code adds no log10 term (word count 0) and scores `3.0`,
while the claimed formula ("if the content is non-empty") demands
`log10(0) × 0.2`, which in `f64` is `-inf`: the two disagree. -/
theorem c7_counterexample :
    calculate_entry_importance (entryToJsonObj blankContentEntry) = F64.val 3 ∧
    specEntryScore blankContentEntry = F64.neginf ∧
    calculate_entry_importance (entryToJsonObj blankContentEntry) ≠
      specEntryScore blankContentEntry := by
  have hwc : wordCount (" ") = 0 := by decide
  have ha : calculate_entry_importance (entryToJsonObj blankContentEntry) = F64.val 3 := by
    rw [calcEntryEq]
    simp [specEntryScoreAmended, blankContentEntry, hwc, F64.addVal]
    norm_num
  have hb : specEntryScore blankContentEntry = F64.neginf := by
    simp [specEntryScore, blankContentEntry, hwc, log10F, F64.add, F64.mulPos]
  refine ⟨ha, hb, ?_⟩
  rw [ha, hb]
  intro h
  cases h

/-- Witness for `c7_score_formula` at a concrete entry. -/
theorem c7_score_formula_witness :
    calculate_entry_importance (entryToJsonObj blankContentEntry) =
      specEntryScoreAmended blankContentEntry :=
  (c7_score_formula blankContentEntry).1

/-! ## C4 -/

/-- C4: if the model client replies with at least one tool call on every
round-trip and an app handle is provided, `create_chat_completion`
terminates with the cap-exceeded error `"工具调用循环次数超过限制"`
("tool-call loop limit exceeded") after sending exactly
`max_iterations = 5` requests — never fewer, never more — and never
returns a success result. -/
theorem c4_tool_loop_cap (client : ModelClient) (svc : ToolCallRequest → ToolResult)
    (parse : ArgParser) (character_uuid : Option String)
    (request_messages : List AIChatMessage)
    (h : ∀ msgs, ∃ choice calls,
      (client msgs).choices.head? = some choice ∧
      choice.message.tool_calls = some calls ∧ calls ≠ []) :
    create_chat_completion client svc parse character_uuid true request_messages =
      (.error ("工具调用循环次数超过限制"), 5) := by
  have key : ∀ fuel msgs,
      chatLoopGo client svc parse character_uuid true fuel msgs =
        (.error ("工具调用循环次数超过限制"), fuel) := by
    intro fuel
    induction fuel with
    | zero => intro msgs; rfl
    | succ n ih =>
      intro msgs
      obtain ⟨choice, calls, h1, h2, h3⟩ := h msgs
      simp only [chatLoopGo, h1, h2, ne_eq, h3, not_false_iff, true_and, if_pos, ih]
  exact key 5 request_messages

/-- Witness for `c4_tool_loop_cap`: a concrete always-tool-calling client
is driven to the cap error after exactly 5 requests. -/
theorem c4_tool_loop_cap_witness :
    create_chat_completion alwaysToolClient okToolService okArgParser none true [] =
      (.error ("工具调用循环次数超过限制"), 5) :=
  c4_tool_loop_cap alwaysToolClient okToolService okArgParser none []
    (fun _ => ⟨_, _, rfl, rfl, by decide⟩)

/-! ## C8 -/

/-- C8: (1) invoking an unregistered tool name yields a
`ToolResult { success := false, error := "Unknown tool: …" }` rather than
an error path; (2) a tool-call argument string that fails to parse as a
string-keyed JSON map yields a `{success:false, error:…}` payload; and
(3) in the tool-call loop that payload is appended as the tool-role
message (with the call's id) and the loop proceeds to the next round-trip
instead of aborting. -/
theorem c8_tool_failures_are_results :
    (∀ (reg : ToolRegistry) (request : ToolCallRequest),
      assocGet reg.tools request.tool_name = none →
      reg.execute_tool_call_global request =
        { success := false, data := none
          error := some ("Unknown tool: " ++ request.tool_name)
          execution_time_ms := 0 }) ∧
    (∀ (svc : ToolCallRequest → ToolResult) (parse : ArgParser)
        (character_uuid : Option String) (tool_name arguments err : String),
      parse arguments = .error err →
      execute_single_tool_call svc parse character_uuid tool_name arguments =
        some (Json.obj
          [("success", Json.bool false),
           ("error", Json.str ("Invalid tool arguments: " ++ err))])) ∧
    (∀ (client : ModelClient) (svc : ToolCallRequest → ToolResult)
        (parse : ArgParser) (character_uuid : Option String) (fuel : Nat)
        (msgs : List AIChatMessage) (choice : ChatCompletionChoice)
        (call : ToolCallData) (err : String),
      (client msgs).choices.head? = some choice →
      choice.message.tool_calls = some [call] →
      parse call.function.arguments = .error err →
      chatLoopGo client svc parse character_uuid true (fuel + 1) msgs =
        ((chatLoopGo client svc parse character_uuid true fuel
            (msgs ++ [choice.message] ++
              [{ role := .Tool
                 content := serializeJson (Json.obj
                   [("success", Json.bool false),
                    ("error", Json.str ("Invalid tool arguments: " ++ err))])
                 name := none, tool_calls := none
                 tool_call_id := some call.id }])).1,
         (chatLoopGo client svc parse character_uuid true fuel
            (msgs ++ [choice.message] ++
              [{ role := .Tool
                 content := serializeJson (Json.obj
                   [("success", Json.bool false),
                    ("error", Json.str ("Invalid tool arguments: " ++ err))])
                 name := none, tool_calls := none
                 tool_call_id := some call.id }])).2 + 1)) := by
  refine ⟨?_, ?_, ?_⟩
  · intro reg request hmiss
    simp only [ToolRegistry.execute_tool_call_global, hmiss]
  · intro svc parse character_uuid tool_name arguments err hparse
    simp only [execute_single_tool_call, hparse]
  · intro client svc parse character_uuid fuel msgs choice call err h1 h2 hparse
    simp only [chatLoopGo, h1, h2, List.map, execute_single_tool_call, hparse,
      toolResultMessage]
    rw [if_pos (⟨by simp, trivial⟩ : ¬[call] = [] ∧ True)]

/-- Witness for `c8_tool_failures_are_results` at concrete inputs. -/
theorem c8_tool_failures_witness :
    (ToolRegistry.execute_tool_call_global { tools := [] }
        { tool_name := "nope", parameters := [], character_uuid := none, context := none } =
      { success := false, data := none, error := some ("Unknown tool: nope")
        execution_time_ms := 0 }) ∧
    (execute_single_tool_call okToolService failArgParser none ("edit_character") ("not json") =
      some (Json.obj
        [("success", Json.bool false),
         ("error", Json.str ("Invalid tool arguments: expected value at line 1 column 1"))])) ∧
    (chatLoopGo alwaysToolClient okToolService failArgParser none true 1 [] =
      (.error ("工具调用循环次数超过限制"), 1)) := by
  refine ⟨?_, ?_, ?_⟩
  · exact c8_tool_failures_are_results.1 { tools := [] }
      { tool_name := "nope", parameters := [], character_uuid := none, context := none } rfl
  · exact c8_tool_failures_are_results.2.1 okToolService failArgParser none
      ("edit_character") ("not json") ("expected value at line 1 column 1") rfl
  · exact (c8_tool_failures_are_results.2.2 alwaysToolClient okToolService failArgParser
      none 0 [] _ _ ("expected value at line 1 column 1") rfl rfl rfl).trans rfl

/-! ## C3: history truncation takes exactly the maximal fitting suffix -/

/-- The per-message token cost used by `build_history_messages`: the count
of the JSON-serialized converted message. -/
def msgCost (tc : TC) (m : ChatMessage) : Nat :=
  count_message_tokens tc (toOpenAIMessage m)

/-- The greedy prefix of the reversed history that `buildHistGo` accepts:
take messages while the running total stays within the limit, stop at the
first that does not fit. -/
def histTakeB (tc : TC) (limit : Nat) : List ChatMessage → Nat → List ChatMessage
  | [], _ => []
  | m :: rest, used =>
    if used + msgCost tc m ≤ limit then
      m :: histTakeB tc limit rest (used + msgCost tc m)
    else []

theorem buildHistGo_eq (tc : TC) (limit : Nat) :
    ∀ (l : List ChatMessage) (acc : List OpenAIMessage) (used : Nat),
      buildHistGo tc limit l acc used =
        ((histTakeB tc limit l used).reverse.map toOpenAIMessage) ++ acc := by
  intro l
  induction l with
  | nil => intro acc used; simp [buildHistGo, histTakeB]
  | cons m rest ih =>
    intro acc used
    by_cases hc : used + msgCost tc m ≤ limit
    · simp only [buildHistGo, histTakeB, msgCost] at *
      rw [if_pos hc, if_pos hc, ih]
      simp
    · simp only [buildHistGo, histTakeB, msgCost] at *
      rw [if_neg hc, if_neg hc]
      simp

/-- The accepted prefix really is a prefix of the input. -/
theorem histTakeB_prefix (tc : TC) (limit : Nat) :
    ∀ (l : List ChatMessage) (used : Nat),
      (histTakeB tc limit l used).IsPrefix l := by
  intro l
  induction l with
  | nil => intro used; simp [histTakeB]
  | cons m rest ih =>
    intro used
    by_cases hc : used + msgCost tc m ≤ limit
    · rw [histTakeB, if_pos hc]
      obtain ⟨t, htt⟩ := ih (used + msgCost tc m)
      exact ⟨t, by rw [List.cons_append, htt]⟩
    · rw [histTakeB, if_neg hc]
      exact List.nil_prefix

/-- The accepted prefix stays within the budget. -/
theorem histTakeB_sum_le (tc : TC) (limit : Nat) :
    ∀ (l : List ChatMessage) (used : Nat), used ≤ limit →
      used + ((histTakeB tc limit l used).map (msgCost tc)).sum ≤ limit := by
  intro l
  induction l with
  | nil => intro used h; simpa [histTakeB] using h
  | cons m rest ih =>
    intro used h
    by_cases hc : used + msgCost tc m ≤ limit
    · rw [histTakeB, if_pos hc]
      have := ih (used + msgCost tc m) hc
      simp only [List.map_cons, List.sum_cons]
      omega
    · rw [histTakeB, if_neg hc]
      simpa using h

/-- Maximality: any in-budget prefix is no longer than the accepted one. -/
theorem histTakeB_maximal (tc : TC) (limit : Nat) :
    ∀ (l : List ChatMessage) (used k : Nat), k ≤ l.length →
      used + ((l.take k).map (msgCost tc)).sum ≤ limit →
      k ≤ (histTakeB tc limit l used).length := by
  intro l
  induction l with
  | nil =>
    intro used k hk _
    simp only [histTakeB, List.length_nil]
    simpa using hk
  | cons m rest ih =>
    intro used k hk hsum
    cases k with
    | zero => exact Nat.zero_le _
    | succ k' =>
      simp only [List.take_succ_cons, List.map_cons, List.sum_cons] at hsum
      have hfit : used + msgCost tc m ≤ limit := by omega
      rw [histTakeB, if_pos hfit]
      simp only [List.length_cons, Nat.succ_le_succ_iff]
      exact ih (used + msgCost tc m) k' (by simpa using hk) (by omega)

/-- C3: `build_history_messages` returns exactly the maximal suffix of the
history whose cumulative per-message token count fits the sub-budget,
converted and restored to chronological order; the dropped turns are
precisely the complementary prefix (oldest first), and no longer suffix
fits the budget. -/
theorem c3_history_maximal_suffix (tc : TC) (chat_history : List ChatMessage)
    (limit : Nat) :
    ∃ dropped kept,
      chat_history = dropped ++ kept ∧
      build_history_messages tc chat_history limit = kept.map toOpenAIMessage ∧
      (kept.map (msgCost tc)).sum ≤ limit ∧
      (∀ dropped' kept', chat_history = dropped' ++ kept' →
        (kept'.map (msgCost tc)).sum ≤ limit → kept'.length ≤ kept.length) := by
  set r := chat_history.reverse with hr
  set P := histTakeB tc limit r 0 with hP
  obtain ⟨t, ht⟩ := histTakeB_prefix tc limit r 0
  refine ⟨t.reverse, P.reverse, ?_, ?_, ?_, ?_⟩
  · have : chat_history = r.reverse := by simp [hr]
    rw [this, ← ht]
    simp
  · rw [build_history_messages, buildHistGo_eq]
    simp [hP]
  · have := histTakeB_sum_le tc limit r 0 (Nat.zero_le _)
    simpa [← hP, List.map_reverse, List.sum_reverse] using this
  · intro dropped' kept' hsplit hsum
    have hrk : r.take kept'.length = kept'.reverse := by
      have : r = kept'.reverse ++ dropped'.reverse := by
        rw [hr, hsplit]; simp
      rw [this]
      have hlen : kept'.length = kept'.reverse.length := by simp
      rw [hlen, List.take_left]
    have hsum' : (0 : Nat) + ((r.take kept'.length).map (msgCost tc)).sum ≤ limit := by
      rw [hrk]
      simpa [List.map_reverse, List.sum_reverse] using hsum
    have hklen : kept'.length ≤ r.length := by
      rw [hr, hsplit]; simp
    have := histTakeB_maximal tc limit r 0 kept'.length hklen hsum'
    simpa [← hP] using this

/-- C1 (history part): the history segment built by the context builder
always fits the history sub-reservation. -/
theorem build_history_tokens_le (tc : TC) (hist : List ChatMessage) (limit : Nat) :
    count_messages_tokens tc (build_history_messages tc hist limit) ≤ limit := by
  rw [build_history_messages, buildHistGo_eq]
  have := histTakeB_sum_le tc limit hist.reverse 0 (Nat.zero_le _)
  simpa [count_messages_tokens, List.map_reverse, List.sum_reverse, msgCost,
    Function.comp] using this

/-- A minimal chat message for concrete instantiations. -/
def sampleMsg (role content : String) : ChatMessage :=
  { role, content, name := none, tool_calls := none, tool_call_id := none
    timestamp := none }

/-- Witness for `c3_history_maximal_suffix` at a concrete history: every
message costs one token and the budget is one, so exactly the most recent
turn is kept. -/
theorem c3_history_maximal_suffix_witness :
    ∃ dropped kept,
      [sampleMsg ("user") ("hi"), sampleMsg ("assistant") ("hello")] = dropped ++ kept ∧
      build_history_messages (fun _ => 1)
          [sampleMsg ("user") ("hi"), sampleMsg ("assistant") ("hello")] 1 =
        kept.map toOpenAIMessage ∧
      (kept.map (msgCost (fun _ => 1))).sum ≤ 1 ∧
      (∀ dropped' kept',
        [sampleMsg ("user") ("hi"), sampleMsg ("assistant") ("hello")] = dropped' ++ kept' →
        (kept'.map (msgCost (fun _ => 1))).sum ≤ 1 → kept'.length ≤ kept.length) :=
  c3_history_maximal_suffix (fun _ => 1)
    [sampleMsg ("user") ("hi"), sampleMsg ("assistant") ("hello")] 1

/-! ## C1 -/

/-- A tokenizer model that charges 200000 tokens per `¤` character and
nothing otherwise (an admissible abstract token counter; it makes a single
marker character arbitrarily expensive). -/
def markTC : TC := fun s => 200000 * (s.data.filter (fun c => c = '¤')).length

/-- A character card whose description is the single expensive marker. -/
def markedCharacter : CharacterData :=
  { sampleCharacter with
    card := { sampleCharacter.card with
      data := { sampleCardData with description := "¤" } } }

/-- C1 (amended): of the four segments, only the history segment is
actually capped by its sub-reservation; `build_full_context` merely
measures the system, persona and worldbook segments without enforcing
their reservations. -/
theorem c1_history_within_reservation (cb : ContextBuilder) (tc : TC)
    (character_data : CharacterData) (chat_history : List ChatMessage)
    (current_user_message : Option String) :
    (build_full_context cb tc character_data chat_history
        current_user_message).token_allocation.history ≤
      cb.token_budget.history_reserved :=
  build_history_tokens_le tc chat_history cb.token_budget.history_reserved

set_option maxRecDepth 10000 in
set_option maxHeartbeats 2000000 in
/-- C1 counterexample: with an admissible tokenizer and a one-character
description, the persona segment count (200000) exceeds its 35840
reservation, and the four segment counts sum to more than the sum of the
four reservations (102400) — so neither the per-segment claim nor the sum
claim holds. -/
theorem c1_counterexample :
    ¬ ((build_full_context (ContextBuilder.new ContextBuilderOptions.default) markTC
          markedCharacter [] none).token_allocation.character ≤
        TokenBudget.default.character_reserved) ∧
    ¬ ((build_full_context (ContextBuilder.new ContextBuilderOptions.default) markTC
          markedCharacter [] none).token_allocation.system +
       (build_full_context (ContextBuilder.new ContextBuilderOptions.default) markTC
          markedCharacter [] none).token_allocation.character +
       (build_full_context (ContextBuilder.new ContextBuilderOptions.default) markTC
          markedCharacter [] none).token_allocation.worldbook +
       (build_full_context (ContextBuilder.new ContextBuilderOptions.default) markTC
          markedCharacter [] none).token_allocation.history ≤
        TokenBudget.default.system_reserved + TokenBudget.default.character_reserved +
        TokenBudget.default.worldbook_reserved + TokenBudget.default.history_reserved) := by
  decide

/-! ## C2 -/

theorem worldbookGreedy_sublist (budget : Nat) :
    ∀ (l : List ProcessedWorldBookEntry) (used : Nat),
      (worldbookGreedy budget l used).Sublist l := by
  intro l
  induction l with
  | nil => intro used; simp [worldbookGreedy]
  | cons p ps ih =>
    intro used
    by_cases hc : used + p.token_count ≤ budget
    · rw [worldbookGreedy, if_pos hc]
      exact (ih (used + p.token_count)).cons₂ p
    · rw [worldbookGreedy, if_neg hc]
      exact (ih used).cons p

theorem worldbookGreedy_sum_le (budget : Nat) :
    ∀ (l : List ProcessedWorldBookEntry) (used : Nat), used ≤ budget →
      used + ((worldbookGreedy budget l used).map (fun p => p.token_count)).sum ≤ budget := by
  intro l
  induction l with
  | nil => intro used h; simpa [worldbookGreedy] using h
  | cons p ps ih =>
    intro used h
    by_cases hc : used + p.token_count ≤ budget
    · rw [worldbookGreedy, if_pos hc]
      have := ih (used + p.token_count) hc
      simp only [List.map_cons, List.sum_cons]
      omega
    · rw [worldbookGreedy, if_neg hc]
      exact ih used h

/-- C2 (amended): the worldbook entries are stably sorted descending by
importance score and then included greedily in that order; an entry whose
cost would push the running total over the worldbook sub-reservation is
skipped, but the loop keeps considering the remaining (later) entries —
it does not stop at the first over-budget entry.  Included entries appear
whole (all-or-nothing) in sorted order, and the cumulative cost of the
included entries never exceeds the sub-reservation. -/
theorem c2_worldbook_greedy (cb : ContextBuilder) (tc : TC) (book : CharacterBook) :
    List.Sorted scoreDesc (worldbookSorted tc book) ∧
    (worldbookSorted tc book).Perm (worldbookProcessed tc book) ∧
    (worldbookIncluded cb tc book).Sublist (worldbookSorted tc book) ∧
    ((worldbookIncluded cb tc book).map (fun p => p.token_count)).sum ≤
      cb.token_budget.worldbook_reserved ∧
    build_worldbook_content cb tc book =
      worldbookHeader book ++
        String.join ((worldbookIncluded cb tc book).map
          (fun p => serialize_worldbook_entry p.entry 0)) := by
  refine ⟨List.sorted_insertionSort _ _, List.perm_insertionSort _ _,
    worldbookGreedy_sublist _ _ _, ?_, rfl⟩
  have := worldbookGreedy_sum_le cb.token_budget.worldbook_reserved
    (worldbookSorted tc book) 0 (Nat.zero_le _)
  simpa using this

/-- The spec's wording of the inclusion loop: include entries in sorted
order while the cumulative cost fits, and stop at the first entry whose
cost would exceed the sub-reservation. -/
def specWorldbookStop (budget : Nat) :
    List ProcessedWorldBookEntry → Nat → List ProcessedWorldBookEntry
  | [], _ => []
  | p :: ps, used =>
    if used + p.token_count ≤ budget then
      p :: specWorldbookStop budget ps (used + p.token_count)
    else []

/-- A tokenizer model charging 10000 tokens per `¤` character. -/
def markC2 : TC := fun s => 10000 * (s.data.filter (fun c => c = '¤')).length

/-- A minimal worldbook entry with given content and priority. -/
def c2entry (content : String) (priority : Nat) : WorldBookEntry :=
  { id := none, name := none, keys := [], content
    extensions := Json.obj [], enabled := true, insertion_order := 0
    case_sensitive := none, priority := some priority, comment := none
    selective := none, secondary_keys := none, constant := none
    position := none }

/-- Three entries with scores 8 > 5 > 3 and token costs 20000, 10000, 0
against the fixed 20480 worldbook reservation: the second does not fit but
the third does. -/
def c2book : CharacterBook :=
  { name := none, description := none, scan_depth := none
    token_budget := none, recursive_scanning := none
    extensions := Json.obj []
    entries := [c2entry ("¤¤") 10, c2entry ("¤") 4, c2entry ("x") 0] }

/-- C2 counterexample: the code includes the first and the *third* entry
(costs 20000 and 0) — it skips the over-budget second entry and keeps
going — whereas the claimed stop-at-first-overflow rule would include only
the first entry. -/
theorem c2_counterexample :
    ((worldbookIncluded (ContextBuilder.new ContextBuilderOptions.default) markC2
        c2book).map (fun p => p.token_count) = [20000, 0]) ∧
    ((specWorldbookStop TokenBudget.default.worldbook_reserved
        (worldbookSorted markC2 c2book) 0).map (fun p => p.token_count) = [20000]) ∧
    (worldbookIncluded (ContextBuilder.new ContextBuilderOptions.default) markC2
        c2book).length ≠
      (specWorldbookStop TokenBudget.default.worldbook_reserved
        (worldbookSorted markC2 c2book) 0).length := by
  have hscore : ∀ (c : String) (p : Nat), wordCount c = 1 →
      calculate_entry_importance (entryToJsonObj (c2entry c p)) =
        F64.val (3 + (p : ℚ) * (1 / 2)) := by
    intro c p hwc
    rw [calcEntryEq]
    simp only [specEntryScoreAmended, c2entry, hwc, Nat.lt_irrefl, gt_iff_lt,
      Nat.zero_lt_one, if_true, log10F, Nat.one_ne_zero, if_false, Nat.log_one_right,
      List.length_nil, F64.addVal, F64.mulPosVal]
    norm_num
  have h1 := hscore ("¤¤") 10 (by decide)
  have h2 := hscore ("¤") 4 (by decide)
  have h3 := hscore ("x") 0 (by decide)
  have hsorted : List.Sorted scoreDesc (worldbookProcessed markC2 c2book) := by
    rw [show worldbookProcessed markC2 c2book =
      [{ entry := entryToJsonObj (c2entry ("¤¤") 10)
         token_count := count_tokens markC2
           (serialize_worldbook_entry (entryToJsonObj (c2entry ("¤¤") 10)) 0)
         importance_score := calculate_entry_importance (entryToJsonObj (c2entry ("¤¤") 10)) },
       { entry := entryToJsonObj (c2entry ("¤") 4)
         token_count := count_tokens markC2
           (serialize_worldbook_entry (entryToJsonObj (c2entry ("¤") 4)) 1)
         importance_score := calculate_entry_importance (entryToJsonObj (c2entry ("¤") 4)) },
       { entry := entryToJsonObj (c2entry ("x") 0)
         token_count := count_tokens markC2
           (serialize_worldbook_entry (entryToJsonObj (c2entry ("x") 0)) 2)
         importance_score := calculate_entry_importance (entryToJsonObj (c2entry ("x") 0)) }]
      from rfl]
    have hle : ∀ x y : ℚ, x ≤ y → F64.le (F64.val x) (F64.val y) := fun _ _ h => h
    refine List.Pairwise.cons ?_ (List.Pairwise.cons ?_ (List.pairwise_singleton _ _))
    · intro b hb
      simp only [List.mem_cons, List.mem_singleton, List.not_mem_nil, or_false] at hb
      rcases hb with rfl | rfl
      · simp only [scoreDesc, h1, h2]
        exact hle _ _ (by push_cast; norm_num)
      · simp only [scoreDesc, h1, h3]
        exact hle _ _ (by push_cast; norm_num)
    · intro b hb
      simp only [List.mem_singleton] at hb
      subst hb
      simp only [scoreDesc, h2, h3]
      exact hle _ _ (by push_cast; norm_num)
  have hss : worldbookSorted markC2 c2book = worldbookProcessed markC2 c2book :=
    hsorted.insertionSort_eq
  refine ⟨?_, ?_, ?_⟩
  · show (worldbookGreedy (ContextBuilder.new
        ContextBuilderOptions.default).token_budget.worldbook_reserved
        (worldbookSorted markC2 c2book) 0).map (fun p => p.token_count) = [20000, 0]
    rw [hss]
    decide
  · rw [hss]
    decide
  · show (worldbookGreedy (ContextBuilder.new
        ContextBuilderOptions.default).token_budget.worldbook_reserved
        (worldbookSorted markC2 c2book) 0).length ≠ _
    rw [hss]
    decide

/-! ## C5 -/

theorem smOldestGo_mem :
    ∀ (l : List (String × CharacterSession)) (p), smOldestGo p l ∈ p :: l := by
  intro l
  induction l with
  | nil => intro p; simp [smOldestGo]
  | cons q rest ih =>
    intro p
    rw [smOldestGo]
    by_cases hc : q.2.last_active < p.2.last_active
    · rw [if_pos hc]
      have h := ih q
      simp only [List.mem_cons] at h ⊢
      tauto
    · rw [if_neg hc]
      have h := ih p
      simp only [List.mem_cons] at h ⊢
      tauto

theorem smOldestGo_min :
    ∀ (l : List (String × CharacterSession)) (p) (q), q ∈ p :: l →
      (smOldestGo p l).2.last_active ≤ q.2.last_active := by
  intro l
  induction l with
  | nil =>
    intro p q hq
    simp only [List.mem_singleton] at hq
    subst hq
    simp [smOldestGo]
  | cons a rest ih =>
    intro p q hq
    rw [smOldestGo]
    have hbp : (if a.2.last_active < p.2.last_active then a else p).2.last_active ≤
        p.2.last_active := by
      split_ifs with hc
      · exact le_of_lt hc
      · exact le_refl _
    have hba : (if a.2.last_active < p.2.last_active then a else p).2.last_active ≤
        a.2.last_active := by
      split_ifs with hc
      · exact le_refl _
      · exact le_of_not_lt hc
    have hself := ih (if a.2.last_active < p.2.last_active then a else p) _
      (List.mem_cons_self _ _)
    simp only [List.mem_cons] at hq
    rcases hq with rfl | rfl | hq
    · exact le_trans hself hbp
    · exact le_trans hself hba
    · exact ih _ q (List.mem_cons_of_mem _ hq)

theorem assocRemove_length_le {α : Type} :
    ∀ (l : List (String × α)) (k), (assocRemove l k).length ≤ l.length := by
  intro l k
  induction l with
  | nil => simp [assocRemove]
  | cons p rest ih =>
    rw [assocRemove]
    split_ifs
    · exact Nat.le_succ _
    · simpa using Nat.succ_le_succ ih

theorem assocRemove_length_of_mem {α : Type} :
    ∀ (l : List (String × α)) (k : String) (v : α), (k, v) ∈ l →
      (assocRemove l k).length + 1 = l.length := by
  intro l
  induction l with
  | nil => intro k v hv; cases hv
  | cons p rest ih =>
    intro k v hv
    rw [assocRemove]
    by_cases hk : p.1 = k
    · rw [if_pos hk]; rfl
    · rw [if_neg hk]
      have hv' : (k, v) ∈ rest := by
        rcases List.mem_cons.1 hv with h | h
        · exact absurd (congrArg Prod.fst h.symm) hk
        · exact h
      simpa using congrArg Nat.succ (ih k v hv')

theorem assocGet_remove_none {α : Type} :
    ∀ (l : List (String × α)) (k k' : String), assocGet l k = none →
      assocGet (assocRemove l k') k = none := by
  intro l
  induction l with
  | nil => intro k k' _; simp [assocRemove, assocGet]
  | cons p rest ih =>
    intro k k' hget
    rw [assocGet] at hget
    by_cases hk : p.1 = k
    · rw [if_pos hk] at hget; cases hget
    · rw [if_neg hk] at hget
      rw [assocRemove]
      by_cases hk' : p.1 = k'
      · rw [if_pos hk']; exact hget
      · rw [if_neg hk', assocGet, if_neg hk]
        exact ih k k' hget

theorem assocInsert_length_of_none {α : Type} :
    ∀ (l : List (String × α)) (k : String) (v : α), assocGet l k = none →
      (assocInsert l k v).length = l.length + 1 := by
  intro l
  induction l with
  | nil => intro k v _; rfl
  | cons p rest ih =>
    intro k v hget
    rw [assocGet] at hget
    by_cases hk : p.1 = k
    · rw [if_pos hk] at hget; cases hget
    · rw [if_neg hk] at hget
      rw [assocInsert, if_neg hk]
      simpa using congrArg Nat.succ (ih k v hget)

theorem getOrCreate_len_le (mgr : SessionManager) (uuid : String)
    (cd : CharacterData) (hist : List ChatMessage) (now : Nat)
    (hmax : 1 ≤ mgr.max_sessions) (hlen : mgr.sessions.length ≤ mgr.max_sessions) :
    (SessionManager.get_or_create_session mgr uuid cd hist now).2.sessions.length ≤
      mgr.max_sessions := by
  rw [SessionManager.get_or_create_session]
  cases hget : assocGet mgr.sessions uuid with
  | some s => exact hlen
  | none =>
    simp only
    by_cases hcap : mgr.sessions.length ≥ mgr.max_sessions
    · rw [if_pos hcap]
      have hlen_eq : mgr.sessions.length = mgr.max_sessions := le_antisymm hlen hcap
      cases hs : mgr.sessions with
      | nil =>
        rw [hs] at hlen_eq
        simp at hlen_eq
        omega
      | cons p rest =>
        have hget' : assocGet (p :: rest) uuid = none := hs ▸ hget
        have hmem := smOldestGo_mem rest p
        have hrem : (assocRemove (p :: rest) (smOldestGo p rest).1).length + 1 =
            (p :: rest).length :=
          assocRemove_length_of_mem (p :: rest) (smOldestGo p rest).1
            (smOldestGo p rest).2 (by simpa using hmem)
        have hget'' : assocGet (assocRemove (p :: rest) (smOldestGo p rest).1) uuid = none :=
          assocGet_remove_none (p :: rest) uuid (smOldestGo p rest).1 hget'
        show (assocInsert (assocRemove (p :: rest) (smOldestGo p rest).1) uuid
          (CharacterSession.load uuid cd hist now)).length ≤ mgr.max_sessions
        rw [assocInsert_length_of_none _ _ _ hget'']
        rw [hs] at hlen_eq
        simp only [List.length_cons] at hlen_eq hrem
        omega
    · rw [if_neg hcap]
      show (assocInsert mgr.sessions uuid
        (CharacterSession.load uuid cd hist now)).length ≤ mgr.max_sessions
      rw [assocInsert_length_of_none _ _ _ hget]
      omega

theorem applySMOp_max (mgr : SessionManager) (op : SMOp) :
    (applySMOp mgr op).max_sessions = mgr.max_sessions := by
  cases op with
  | getOrCreate uuid cd hist now =>
    rw [applySMOp, SessionManager.get_or_create_session]
    cases assocGet mgr.sessions uuid <;> rfl
  | update s => rfl
  | remove uuid => rfl

/-- C5 (amended): restricted to the operations that actually go through
the capacity check — `get_or_create_session` and `remove_session` — the
pool never exceeds its configured maximum, and inserting at capacity
first evicts exactly one session with minimal last-activity timestamp
before the new session is inserted (`update_session` performs a bare
insert with no capacity check and is excluded; see the counterexample). -/
theorem c5_eviction_bound :
    (∀ (ops : List SMOp) (mgr : SessionManager),
      1 ≤ mgr.max_sessions → mgr.sessions.length ≤ mgr.max_sessions →
      (∀ op ∈ ops, ∀ s, op ≠ SMOp.update s) →
      (applySMOps mgr ops).sessions.length ≤ mgr.max_sessions) ∧
    (∀ (mgr : SessionManager) (uuid : String) (cd : CharacterData)
        (hist : List ChatMessage) (now : Nat),
      assocGet mgr.sessions uuid = none →
      mgr.sessions.length = mgr.max_sessions → 1 ≤ mgr.max_sessions →
      ∃ victim, victim ∈ mgr.sessions ∧
        (∀ q ∈ mgr.sessions, victim.2.last_active ≤ q.2.last_active) ∧
        (SessionManager.get_or_create_session mgr uuid cd hist now).2.sessions =
          assocInsert (assocRemove mgr.sessions victim.1) uuid
            (CharacterSession.load uuid cd hist now) ∧
        (SessionManager.get_or_create_session mgr uuid cd hist now).2.sessions.length =
          mgr.max_sessions) := by
  constructor
  · intro ops
    induction ops with
    | nil => intro mgr _ hlen _; exact hlen
    | cons op rest ih =>
      intro mgr hmax hlen hno
      have hstep : (applySMOp mgr op).sessions.length ≤ mgr.max_sessions := by
        cases op with
        | getOrCreate uuid cd hist now => exact getOrCreate_len_le mgr uuid cd hist now hmax hlen
        | update s => exact absurd rfl (hno _ (List.mem_cons_self _ _) s)
        | remove uuid => exact le_trans (assocRemove_length_le mgr.sessions uuid) hlen
      have hmaxeq := applySMOp_max mgr op
      have := ih (applySMOp mgr op) (hmaxeq ▸ hmax) (hmaxeq ▸ hstep)
        (fun o ho s => hno o (List.mem_cons_of_mem _ ho) s)
      rw [hmaxeq] at this
      exact this
  · intro mgr uuid cd hist now hget hlen hmax
    cases hs : mgr.sessions with
    | nil =>
      rw [hs] at hlen
      simp at hlen
      omega
    | cons p rest =>
      have hget' : assocGet (p :: rest) uuid = none := hs ▸ hget
      have hget'' : assocGet (assocRemove (p :: rest) (smOldestGo p rest).1) uuid = none :=
        assocGet_remove_none (p :: rest) uuid (smOldestGo p rest).1 hget'
      have hmem := smOldestGo_mem rest p
      have hrem : (assocRemove (p :: rest) (smOldestGo p rest).1).length + 1 =
          (p :: rest).length :=
        assocRemove_length_of_mem (p :: rest) (smOldestGo p rest).1
          (smOldestGo p rest).2 (by simpa using hmem)
      refine ⟨smOldestGo p rest, hmem, ?_, ?_, ?_⟩
      · intro q hq
        exact smOldestGo_min rest p q hq
      · rw [SessionManager.get_or_create_session, hget]
        simp only
        rw [if_pos (le_of_eq hlen.symm), hs]
        rfl
      · rw [SessionManager.get_or_create_session, hget]
        simp only
        rw [if_pos (le_of_eq hlen.symm), hs]
        show (assocInsert (assocRemove (p :: rest) (smOldestGo p rest).1) uuid
          (CharacterSession.load uuid cd hist now)).length = mgr.max_sessions
        rw [assocInsert_length_of_none _ _ _ hget'']
        rw [hs] at hlen
        simp only [List.length_cons] at hlen hrem
        omega

/-- C5 counterexample: `update_session` inserts with no capacity check, so
eleven updates with distinct uuids leave eleven sessions in a pool whose
configured maximum is ten. -/
theorem c5_counterexample :
    (applySMOps (SessionManager.new 10) ((List.range 11).map (fun i =>
        SMOp.update (CharacterSession.new (Nat.repr i) sampleCharacter 0)))).sessions.length
      = 11 ∧
    ¬ ((applySMOps (SessionManager.new 10) ((List.range 11).map (fun i =>
        SMOp.update (CharacterSession.new (Nat.repr i) sampleCharacter 0)))).sessions.length ≤
      (SessionManager.new 10).max_sessions) := by
  decide

/-- Witness for `c5_eviction_bound` at concrete inputs: a create/remove
sequence stays within the bound, and a create at capacity evicts the
least recently active session. -/
theorem c5_eviction_bound_witness :
    ((applySMOps (SessionManager.new 10)
        [SMOp.getOrCreate ("a") sampleCharacter [] 0,
         SMOp.remove ("a")]).sessions.length ≤ 10) ∧
    (∃ victim,
      victim ∈ [(("x" : String), CharacterSession.new ("x") sampleCharacter 5)] ∧
      (∀ q ∈ [(("x" : String), CharacterSession.new ("x") sampleCharacter 5)],
        victim.2.last_active ≤ q.2.last_active) ∧
      (SessionManager.get_or_create_session
          { sessions := [(("x" : String), CharacterSession.new ("x") sampleCharacter 5)]
            max_sessions := 1 } ("y") sampleCharacter [] 7).2.sessions =
        assocInsert
          (assocRemove [(("x" : String), CharacterSession.new ("x") sampleCharacter 5)]
            victim.1)
          ("y") (CharacterSession.load ("y") sampleCharacter [] 7) ∧
      (SessionManager.get_or_create_session
          { sessions := [(("x" : String), CharacterSession.new ("x") sampleCharacter 5)]
            max_sessions := 1 } ("y") sampleCharacter [] 7).2.sessions.length = 1) := by
  constructor
  · exact c5_eviction_bound.1
      [SMOp.getOrCreate ("a") sampleCharacter [] 0, SMOp.remove ("a")]
      (SessionManager.new 10) (by decide) (by decide)
      (by intro op hop s; fin_cases hop <;> simp)
  · exact c5_eviction_bound.2
      { sessions := [(("x" : String), CharacterSession.new ("x") sampleCharacter 5)]
        max_sessions := 1 } ("y") sampleCharacter [] 7 rfl rfl (by decide)

/-! ## C6 -/

/-- Encoder of a two-tokens-per-character tokenizer model: each character
becomes a (high byte-group, low byte-group) token pair — the same shape in
which a multi-byte UTF-8 character becomes several cl100k tokens. -/
def pairEncode : List Char → List Nat
  | [] => []
  | c :: rest => c.toNat / 256 :: c.toNat % 256 :: pairEncode rest

/-- Decoder: pair up tokens; an odd-length token list cuts a character in
half and fails to decode, exactly like a truncated UTF-8 sequence. -/
def pairDecode : List Nat → Option (List Char)
  | [] => some []
  | [_] => none
  | a :: b :: rest => (pairDecode rest).map (fun cs => Char.ofNat (a * 256 + b) :: cs)

/-- A concrete lossless tokenizer on which truncation decoding can fail. -/
def pairBPE : BPEModel :=
  { encode := fun s => pairEncode s.data
    decode := fun ts => (pairDecode ts).map (fun cs => String.mk cs) }

theorem pairDecode_pairEncode : ∀ l : List Char, pairDecode (pairEncode l) = some l := by
  intro l
  induction l with
  | nil => rfl
  | cons c rest ih =>
    show pairDecode (c.toNat / 256 :: c.toNat % 256 :: pairEncode rest) = some (c :: rest)
    cases henc : pairEncode rest with
    | nil =>
      rw [henc] at ih
      rw [pairDecode, ih]
      simp only [Option.map_some']
      have : c.toNat / 256 * 256 + c.toNat % 256 = c.toNat := by
        rw [Nat.mul_comm]
        exact Nat.div_add_mod c.toNat 256
      rw [this, Char.ofNat_toNat]
    | cons t ts =>
      rw [henc] at ih
      rw [pairDecode, ih]
      simp only [Option.map_some']
      have : c.toNat / 256 * 256 + c.toNat % 256 = c.toNat := by
        rw [Nat.mul_comm]
        exact Nat.div_add_mod c.toNat 256
      rw [this, Char.ofNat_toNat]

theorem pairBPE_roundtrip : Roundtrip pairBPE := by
  intro s
  show (pairDecode (pairEncode s.data)).map (fun cs => String.mk cs) = some s
  rw [pairDecode_pairEncode]
  rfl

/-- C6 counterexample: `pairBPE` is a lossless tokenizer, yet truncating
the two-character text `"ab"` (4 tokens) to 1 token cuts a character in
half, decoding fails, and the character-ratio fallback returns the first
`1 * 4` characters — the whole text — whose token count is 4 > 1.  So the
claim `count(truncate(text, limit)) ≤ limit` fails on the fallback path. -/
theorem c6_counterexample :
    Roundtrip pairBPE ∧
    TokenCounter.truncate_to_limit pairBPE ("ab") 1 = "ab" ∧
    TokenCounter.count_tokens pairBPE
      (TokenCounter.truncate_to_limit pairBPE ("ab") 1) = 4 ∧
    ¬ TokenCounter.count_tokens pairBPE
      (TokenCounter.truncate_to_limit pairBPE ("ab") 1) ≤ 1 :=
  ⟨pairBPE_roundtrip, by decide, by decide, by decide⟩

/-- C6 (amended): `truncate_to_limit` returns the text unchanged — with
`count(result) ≤ limit` — when the text already fits; otherwise it returns
the decode of the first `limit` tokens when decoding succeeds, or the
first `limit * 4` characters when decoding fails, and on those two
truncation paths the token count of the result is not guaranteed to be
within the limit. -/
theorem c6_truncate_paths (m : BPEModel) (text : String) (limit : Nat) :
    (TokenCounter.count_tokens m text ≤ limit →
      TokenCounter.truncate_to_limit m text limit = text ∧
      TokenCounter.count_tokens m (TokenCounter.truncate_to_limit m text limit) ≤ limit) ∧
    (¬ TokenCounter.count_tokens m text ≤ limit →
      (∃ s, m.decode ((m.encode text).take limit) = some s ∧
        TokenCounter.truncate_to_limit m text limit = s) ∨
      (m.decode ((m.encode text).take limit) = none ∧
        TokenCounter.truncate_to_limit m text limit =
          String.mk (text.data.take (limit * 4)))) := by
  constructor
  · intro hfit
    have heq : TokenCounter.truncate_to_limit m text limit = text := by
      rw [TokenCounter.truncate_to_limit]
      simp only [TokenCounter.count_tokens] at hfit
      rw [if_pos hfit]
    exact ⟨heq, by rw [heq]; exact hfit⟩
  · intro hbig
    rw [TokenCounter.truncate_to_limit]
    simp only [TokenCounter.count_tokens] at hbig
    rw [if_neg hbig]
    cases hdec : m.decode ((m.encode text).take limit) with
    | some s => exact Or.inl ⟨s, rfl, rfl⟩
    | none => exact Or.inr ⟨rfl, rfl⟩

/-- Witness for `c6_truncate_paths` at concrete inputs: with `pairBPE`,
`"ab"` fits a 4-token limit unchanged, and under a 1-token limit the
decode of the truncated tokens fails and the fallback fires. -/
theorem c6_truncate_paths_witness :
    (TokenCounter.truncate_to_limit pairBPE ("ab") 4 = "ab" ∧
      TokenCounter.count_tokens pairBPE
        (TokenCounter.truncate_to_limit pairBPE ("ab") 4) ≤ 4) ∧
    ((∃ s, pairBPE.decode ((pairBPE.encode ("ab")).take 1) = some s ∧
        TokenCounter.truncate_to_limit pairBPE ("ab") 1 = s) ∨
      (pairBPE.decode ((pairBPE.encode ("ab")).take 1) = none ∧
        TokenCounter.truncate_to_limit pairBPE ("ab") 1 =
          String.mk (("ab" : String).data.take (1 * 4)))) :=
  ⟨(c6_truncate_paths pairBPE ("ab") 4).1 (by decide),
   (c6_truncate_paths pairBPE ("ab") 1).2 (by decide)⟩

end CCC
